import Mathlib

/-!
Verification of stl-dimensions-analyzer (src/stl_analyzer.py).

Shallow embedding of the measurement, folder-scanning, export and worker-thread
logic of class STLAnalyzerGUI. Coordinates are modelled as rationals; the
third-party mesh library (numpy-stl) is modelled by input parameters: the load
result of mesh.Mesh.from_file is an Except value, and the first component of
get_mass_properties() is an Option (none when the call raises). The filesystem
seen by Path.glob / Path.rglob is a parameter as well.
-/

namespace StlAnalyzer

/-- A 3-component point, as one row of stl_mesh.points.reshape(-1, 3). -/
structure Vec3 where
  x : ℚ
  y : ℚ
  z : ℚ
deriving DecidableEq, Repr

/-- A loaded mesh: stl_mesh.vectors is the triangle list, each triangle being
three vertices. -/
structure STLMesh where
  vectors : List (Vec3 × Vec3 × Vec3)
deriving DecidableEq, Repr

/-- stl_mesh.points.reshape(-1, 3): every vertex of every triangle, in order. -/
def points (m : STLMesh) : List Vec3 :=
  m.vectors.flatMap (fun t => [t.1, t.2.1, t.2.2])

/-- Componentwise minimum of two points (one step of np.min(..., axis=0)). -/
def cmin (a b : Vec3) : Vec3 := ⟨min a.x b.x, min a.y b.y, min a.z b.z⟩

/-- Componentwise maximum of two points (one step of np.max(..., axis=0)). -/
def cmax (a b : Vec3) : Vec3 := ⟨max a.x b.x, max a.y b.y, max a.z b.z⟩

/-- np.min(points, axis=0): componentwise minimum over the vertex list;
raises (none) on an empty array. -/
def npMin : List Vec3 → Option Vec3
  | [] => none
  | p :: ps => some (ps.foldl cmin p)

/-- np.max(points, axis=0): componentwise maximum over the vertex list;
raises (none) on an empty array. -/
def npMax : List Vec3 → Option Vec3
  | [] => none
  | p :: ps => some (ps.foldl cmax p)

/-- Python round(q, 3): round to 3 decimal places. -/
def round3 (q : ℚ) : ℚ := (round (q * 1000) : ℤ) / 1000

/-- A value stored in one of the result dictionaries. -/
inductive Cell where
  | str (s : String)
  | num (q : ℚ)
  | int (n : Nat)
deriving DecidableEq, Repr

/-- A Python dict with string keys, in insertion order. -/
abbrev Record := List (String × Cell)

/-- Dict lookup (keys are unique in every record the program builds). -/
def getField : Record → String → Option Cell
  | [], _ => none
  | (k, v) :: r, key => if k = key then some v else getField r key

/-- The error-shaped dictionary returned by both failure branches of
get_stl_dimensions: all numeric fields 0, unit "mm". -/
def errorRecord (folder file status : String) : Record :=
  [("folder", Cell.str folder), ("file", Cell.str file),
   ("width_x", Cell.num 0), ("depth_y", Cell.num 0), ("height_z", Cell.num 0),
   ("volume", Cell.num 0), ("triangle_count", Cell.int 0),
   ("unit", Cell.str "mm"), ("status", Cell.str status)]

/-- The ValueError message numpy produces when np.min is applied to the empty
vertex array of a zero-triangle mesh; str(e) of that exception. -/
def numpyEmptyReduceMsg : String :=
  "zero-size array to reduction operation minimum which has no identity"

/-- STLAnalyzerGUI.get_stl_dimensions. `stlAvailable` is the module flag
STL_AVAILABLE; `folder` is the already-computed get_relative_folder value and
`file` the basename; `load` is the outcome of mesh.Mesh.from_file (error =
the str(e) of the raised exception); `massProps` is the first component of
stl_mesh.get_mass_properties(), none when that call raises. -/
def get_stl_dimensions (stlAvailable : Bool) (folder file : String)
    (load : Except String STLMesh) (massProps : Option ℚ) : Record :=
  if stlAvailable = false then
    errorRecord folder file "Error: numpy-stl not installed"
  else
    match load with
    | Except.error e => errorRecord folder file ("Error: " ++ e)
    | Except.ok m =>
      match npMin (points m), npMax (points m) with
      | some mn, some mx =>
          let volume : ℚ := match massProps with | some v => v | none => 0
          [("folder", Cell.str folder), ("file", Cell.str file),
           ("width_x", Cell.num (round3 (mx.x - mn.x))),
           ("depth_y", Cell.num (round3 (mx.y - mn.y))),
           ("height_z", Cell.num (round3 (mx.z - mn.z))),
           ("volume", Cell.num (round3 volume)),
           ("triangle_count", Cell.int m.vectors.length),
           ("unit", Cell.str "mm"), ("status", Cell.str "OK")]
      | _, _ => errorRecord folder file ("Error: " ++ numpyEmptyReduceMsg)

/-- A directory entry as returned by Path.glob / Path.rglob: its full path
str(p), its final component p.name, and whether p.is_file(). -/
structure FSEntry where
  path : String
  name : String
  isFile : Bool
deriving DecidableEq, Repr

/-- The filter applied to every globbed entry:
stl_file.name.lower().endswith('.stl') and stl_file.is_file(). -/
def stlFilter (e : FSEntry) : Bool :=
  e.name.toLower.endsWith ".stl" && e.isFile

/-- Python dict assignment d[k] = v: overwrite in place when the key exists,
append otherwise. -/
def dictInsert (d : List (String × FSEntry)) (k : String) (v : FSEntry) :
    List (String × FSEntry) :=
  if d.any (fun p => p.1 = k) then
    d.map (fun p => if p.1 = k then (k, v) else p)
  else d ++ [(k, v)]

/-- The concatenation of the two glob passes of find_stl_files:
rglob over patterns *.stl then *.STL when recursive, glob otherwise.
`fsGlob recursive folder pattern` is the filesystem's answer to one pass. -/
def globbedFiles (fsGlob : Bool → String → String → List FSEntry)
    (folder_path : String) (recursive : Bool) : List FSEntry :=
  if recursive then
    fsGlob true folder_path "*.stl" ++ fsGlob true folder_path "*.STL"
  else
    fsGlob false folder_path "*.stl" ++ fsGlob false folder_path "*.STL"

/-- STLAnalyzerGUI.find_stl_files: glob, filter, deduplicate keyed on the full
path (unique_files[str(stl_file)] = stl_file), return the dict's values. -/
def find_stl_files (fsGlob : Bool → String → String → List FSEntry)
    (folder_path : String) (recursive : Bool) : List FSEntry :=
  ((globbedFiles fsGlob folder_path recursive).foldl
      (fun d e => if stlFilter e then dictInsert d e.path e else d)
      []).map Prod.snd

/-- Invariant of the unique_files dict of find_stl_files: keys are pairwise
distinct, every stored entry's full path is its key, and every stored entry
passed the filter. -/
def DictWF (d : List (String × FSEntry)) : Prop :=
  (d.map Prod.fst).Nodup ∧ ∀ p ∈ d, p.2.path = p.1 ∧ stlFilter p.2 = true

/-- The keys of every dictionary get_stl_dimensions builds, in insertion
order. -/
def stlRecordKeys : List String :=
  ["folder", "file", "width_x", "depth_y", "height_z", "volume",
   "triangle_count", "unit", "status"]

/-- A file-writing side effect of the export code. logWrite exists so that
"writes a log file" is expressible; the program must be shown to produce or
not produce it. -/
inductive OutputAction where
  | csvWrite (path : String) (header : List String) (rows : List Record)
  | logWrite (path : String) (content : String)
deriving DecidableEq, Repr

/-- STLAnalyzerGUI.auto_export_results: with no results, return early; else
write one CSV at folder/stl_dimensions_<timestamp>.csv whose fieldnames are
the first record's keys and whose rows are all results. No other file is
written. -/
def auto_export_results (folder timestamp : String) (results : List Record) :
    List OutputAction :=
  match results with
  | [] => []
  | r :: _ =>
      [OutputAction.csvWrite (folder ++ "/stl_dimensions_" ++ timestamp ++ ".csv")
        (r.map Prod.fst) results]

/-- The file outputs of STLAnalyzerGUI.analysis_complete: besides widget and
label updates it only calls auto_export_results. -/
def analysis_complete_outputs (folder timestamp : String) (results : List Record) :
    List OutputAction :=
  auto_export_results folder timestamp results

/-- Whether an action list writes any log file. -/
def containsLogWrite (as : List OutputAction) : Bool :=
  as.any fun a => match a with
    | OutputAction.logWrite _ _ => true
    | _ => false

/-- One message the worker thread puts on self.output_queue. -/
inductive Msg where
  | progress (p : ℚ)
  | status (s : String)
  | result (r : Record)
  | complete
  | stopped (n : Nat)
  | error (e : String)
deriving DecidableEq, Repr

/-- One STL file as the worker sees it: its basename, its path relative to the
chosen folder, and the mesh library's behaviour on it. -/
structure FileInput where
  file : String
  relPath : String
  load : Except String STLMesh
  massProps : Option ℚ

/-- The loop of analyze_files_thread over the found files. `i` is both the
enumerate index and processed_count (equal at the top of every iteration);
`stopAt n` is the value the shared flag self.stop_requested shows at its n-th
read (the loop-top read of iteration n; the read after the loop is read
number `length`). On stop: a status message then ('stopped', processed). On
normal exit: progress 100, a status message, then ('complete', None). -/
def analyzeLoop (avail : Bool) (folder : String) (recursive : Bool) (total : Nat)
    (stopAt : Nat → Bool) : List FileInput → Nat → List Msg × List Record
  | [], i =>
      if stopAt i then ([], [])
      else
        ([Msg.progress 100,
          Msg.status ("Analysis complete! " ++ toString total ++ " files processed"
            ++ (if recursive then " recursively" else "")),
          Msg.complete], [])
  | f :: rest, i =>
      if stopAt i then
        ([Msg.status ("Analysis stopped by user after " ++ toString i ++ "/"
            ++ toString total ++ " files"),
          Msg.stopped i], [])
      else
        let r := get_stl_dimensions avail folder f.file f.load f.massProps
        let out := analyzeLoop avail folder recursive total stopAt rest (i + 1)
        (Msg.progress ((i : ℚ) / (total : ℚ) * 100)
           :: Msg.status ("Processing (" ++ toString (i + 1) ++ "/" ++ toString total
                ++ "): " ++ f.relPath)
           :: Msg.result r :: out.1,
         r :: out.2)

/-- STLAnalyzerGUI.analyze_files_thread: the messages it enqueues and the
records it appends to self.results. `files` is the find_stl_files output
paired with the library's behaviour on each file. -/
def analyze_files_thread (avail : Bool) (folder : String) (recursive : Bool)
    (stopAt : Nat → Bool) (files : List FileInput) : List Msg × List Record :=
  let total := files.length
  let out := analyzeLoop avail folder recursive total stopAt files 0
  (Msg.status ("Analyzing " ++ toString total ++ " files "
      ++ (if recursive then "recursively" else "in main folder") ++ "...") :: out.1,
   out.2)

/-- The records carried by the ('result', r) messages of a queue trace: what
check_queue hands to add_result_to_tree, in order. -/
def resultMsgs (ms : List Msg) : List Record :=
  ms.filterMap fun m => match m with
    | Msg.result r => some r
    | _ => none

/-- A record is error-shaped: status begins with "Error" and every numeric
field is 0. -/
def ErrorResult (r : Record) : Prop :=
  (∃ t : String, getField r "status" = some (Cell.str ("Error" ++ t))) ∧
  getField r "width_x" = some (Cell.num 0) ∧
  getField r "depth_y" = some (Cell.num 0) ∧
  getField r "height_z" = some (Cell.num 0) ∧
  getField r "volume" = some (Cell.num 0) ∧
  getField r "triangle_count" = some (Cell.int 0)

/-- A concrete one-triangle mesh used to instantiate the theorems. -/
def sampleMesh : STLMesh := ⟨[(⟨0, 0, 0⟩, ⟨1, 2, 3⟩, ⟨0, 1, 0⟩)]⟩

/-! ### Componentwise minima / maxima of a vertex list -/

/-- v is the componentwise minimum of the vertex list l: each component is a
lower bound and is attained by some vertex. -/
def IsCompMin (l : List Vec3) (v : Vec3) : Prop :=
  (v.x ∈ l.map Vec3.x ∧ v.y ∈ l.map Vec3.y ∧ v.z ∈ l.map Vec3.z) ∧
  ∀ q ∈ l, v.x ≤ q.x ∧ v.y ≤ q.y ∧ v.z ≤ q.z

/-- v is the componentwise maximum of the vertex list l. -/
def IsCompMax (l : List Vec3) (v : Vec3) : Prop :=
  (v.x ∈ l.map Vec3.x ∧ v.y ∈ l.map Vec3.y ∧ v.z ∈ l.map Vec3.z) ∧
  ∀ q ∈ l, q.x ≤ v.x ∧ q.y ≤ v.y ∧ q.z ≤ v.z

lemma foldl_cmin_le {f : Vec3 → ℚ} (hf : ∀ a b, f (cmin a b) = min (f a) (f b))
    (ps : List Vec3) : ∀ p : Vec3, ∀ q ∈ p :: ps, f (ps.foldl cmin p) ≤ f q := by
  induction ps with
  | nil =>
      intro p q hq
      simp only [List.mem_singleton] at hq
      simp [hq]
  | cons a t ih =>
      intro p q hq
      rw [List.foldl_cons]
      have hhead : f (t.foldl cmin (cmin p a)) ≤ f (cmin p a) :=
        ih (cmin p a) (cmin p a) (List.mem_cons_self _ _)
      have hmin : f (cmin p a) = min (f p) (f a) := hf p a
      rcases List.mem_cons.mp hq with h | h
      · rw [h]
        exact le_trans hhead (by rw [hmin]; exact min_le_left _ _)
      · rcases List.mem_cons.mp h with h' | h'
        · rw [h']
          exact le_trans hhead (by rw [hmin]; exact min_le_right _ _)
        · exact ih (cmin p a) q (List.mem_cons_of_mem _ h')

lemma foldl_cmin_mem {f : Vec3 → ℚ} (hf : ∀ a b, f (cmin a b) = min (f a) (f b))
    (ps : List Vec3) : ∀ p : Vec3, f (ps.foldl cmin p) ∈ (p :: ps).map f := by
  induction ps with
  | nil => intro p; simp
  | cons a t ih =>
      intro p
      rw [List.foldl_cons]
      have hih := ih (cmin p a)
      simp only [List.map_cons, List.mem_cons] at hih ⊢
      rcases hih with h | h
      · rcases min_choice (f p) (f a) with hc | hc
        · left; rw [h, hf, hc]
        · right; left; rw [h, hf, hc]
      · right; right; exact h

lemma foldl_cmax_le {f : Vec3 → ℚ} (hf : ∀ a b, f (cmax a b) = max (f a) (f b))
    (ps : List Vec3) : ∀ p : Vec3, ∀ q ∈ p :: ps, f q ≤ f (ps.foldl cmax p) := by
  induction ps with
  | nil =>
      intro p q hq
      simp only [List.mem_singleton] at hq
      simp [hq]
  | cons a t ih =>
      intro p q hq
      rw [List.foldl_cons]
      have hhead : f (cmax p a) ≤ f (t.foldl cmax (cmax p a)) :=
        ih (cmax p a) (cmax p a) (List.mem_cons_self _ _)
      have hmax : f (cmax p a) = max (f p) (f a) := hf p a
      rcases List.mem_cons.mp hq with h | h
      · rw [h]
        exact le_trans (by rw [hmax]; exact le_max_left _ _) hhead
      · rcases List.mem_cons.mp h with h' | h'
        · rw [h']
          exact le_trans (by rw [hmax]; exact le_max_right _ _) hhead
        · exact ih (cmax p a) q (List.mem_cons_of_mem _ h')

lemma foldl_cmax_mem {f : Vec3 → ℚ} (hf : ∀ a b, f (cmax a b) = max (f a) (f b))
    (ps : List Vec3) : ∀ p : Vec3, f (ps.foldl cmax p) ∈ (p :: ps).map f := by
  induction ps with
  | nil => intro p; simp
  | cons a t ih =>
      intro p
      rw [List.foldl_cons]
      have hih := ih (cmax p a)
      simp only [List.map_cons, List.mem_cons] at hih ⊢
      rcases hih with h | h
      · rcases max_choice (f p) (f a) with hc | hc
        · left; rw [h, hf, hc]
        · right; left; rw [h, hf, hc]
      · right; right; exact h

lemma npMin_isCompMin {l : List Vec3} {v : Vec3} (h : npMin l = some v) :
    IsCompMin l v := by
  match l, h with
  | p :: ps, h =>
    have hv : v = ps.foldl cmin p := by
      simpa [npMin] using h.symm
    subst hv
    refine ⟨⟨?_, ?_, ?_⟩, ?_⟩
    · exact foldl_cmin_mem (f := Vec3.x) (fun a b => rfl) ps p
    · exact foldl_cmin_mem (f := Vec3.y) (fun a b => rfl) ps p
    · exact foldl_cmin_mem (f := Vec3.z) (fun a b => rfl) ps p
    · intro q hq
      exact ⟨foldl_cmin_le (f := Vec3.x) (fun a b => rfl) ps p q hq,
             foldl_cmin_le (f := Vec3.y) (fun a b => rfl) ps p q hq,
             foldl_cmin_le (f := Vec3.z) (fun a b => rfl) ps p q hq⟩

lemma npMax_isCompMax {l : List Vec3} {v : Vec3} (h : npMax l = some v) :
    IsCompMax l v := by
  match l, h with
  | p :: ps, h =>
    have hv : v = ps.foldl cmax p := by
      simpa [npMax] using h.symm
    subst hv
    refine ⟨⟨?_, ?_, ?_⟩, ?_⟩
    · exact foldl_cmax_mem (f := Vec3.x) (fun a b => rfl) ps p
    · exact foldl_cmax_mem (f := Vec3.y) (fun a b => rfl) ps p
    · exact foldl_cmax_mem (f := Vec3.z) (fun a b => rfl) ps p
    · intro q hq
      exact ⟨foldl_cmax_le (f := Vec3.x) (fun a b => rfl) ps p q hq,
             foldl_cmax_le (f := Vec3.y) (fun a b => rfl) ps p q hq,
             foldl_cmax_le (f := Vec3.z) (fun a b => rfl) ps p q hq⟩

/-! ### Shared helper lemmas -/

lemma errorRecord_errorResult (folder file t : String) :
    ErrorResult (errorRecord folder file ("Error" ++ t)) := by
  refine ⟨⟨t, ?_⟩, ?_, ?_, ?_, ?_, ?_⟩ <;> simp [errorRecord, getField]

lemma errorResult_prefixed (folder file e : String) :
    ErrorResult (errorRecord folder file ("Error: " ++ e)) := by
  have h : ("Error: " ++ e : String) = "Error" ++ (": " ++ e) := by
    rw [show ("Error: " : String) = "Error" ++ ": " from rfl, String.append_assoc]
  rw [h]
  exact errorRecord_errorResult folder file (": " ++ e)

lemma dictInsert_map_fst (d : List (String × FSEntry)) (k : String) (v : FSEntry) :
    (dictInsert d k v).map Prod.fst =
      if d.any (fun p => p.1 = k) then d.map Prod.fst else d.map Prod.fst ++ [k] := by
  unfold dictInsert
  split
  · rw [List.map_map]
    apply List.map_congr_left
    intro p hp
    by_cases h : p.1 = k
    · simp [h]
    · simp [h]
  · simp

lemma dictInsert_fst_self (d : List (String × FSEntry)) (k : String) (v : FSEntry) :
    k ∈ (dictInsert d k v).map Prod.fst := by
  rw [dictInsert_map_fst]
  split
  · next h =>
      simp only [List.any_eq_true, decide_eq_true_eq] at h
      obtain ⟨p, hp, hpk⟩ := h
      exact hpk ▸ List.mem_map_of_mem Prod.fst hp
  · exact List.mem_append_right _ (List.mem_singleton_self k)

lemma dictInsert_fst_mono {d : List (String × FSEntry)} {q : String}
    (k : String) (v : FSEntry) (hq : q ∈ d.map Prod.fst) :
    q ∈ (dictInsert d k v).map Prod.fst := by
  rw [dictInsert_map_fst]
  split
  · exact hq
  · exact List.mem_append_left _ hq

lemma mem_dictInsert {d : List (String × FSEntry)} {k : String} {v : FSEntry}
    {q : String × FSEntry} (hq : q ∈ dictInsert d k v) : q = (k, v) ∨ q ∈ d := by
  unfold dictInsert at hq
  split at hq
  · obtain ⟨p, hp, hpq⟩ := List.mem_map.mp hq
    by_cases h : p.1 = k
    · left; rw [← hpq]; simp [h]
    · right; rw [← hpq]; simp only [h, if_false]; exact hp
  · rcases List.mem_append.mp hq with h | h
    · right; exact h
    · left; simpa using h

lemma dictInsert_wf {d : List (String × FSEntry)} (hd : DictWF d) (v : FSEntry)
    (hv : stlFilter v = true) : DictWF (dictInsert d v.path v) := by
  obtain ⟨hnd, hall⟩ := hd
  constructor
  · rw [dictInsert_map_fst]
    split
    · exact hnd
    · next h =>
        rw [List.nodup_append]
        refine ⟨hnd, List.nodup_singleton _, ?_⟩
        intro a ha hb
        rw [List.mem_singleton] at hb
        subst hb
        obtain ⟨p, hp, hpa⟩ := List.mem_map.mp ha
        rw [List.any_eq_true] at h
        exact absurd ⟨p, hp, by simp [hpa]⟩ h
  · intro q hq
    rcases mem_dictInsert hq with h | h
    · rw [h]; exact ⟨rfl, hv⟩
    · exact hall q h

lemma foldl_build_wf (g : List FSEntry) :
    ∀ d, DictWF d →
      DictWF (g.foldl (fun d e => if stlFilter e then dictInsert d e.path e else d) d) := by
  induction g with
  | nil => intro d hd; simpa using hd
  | cons e g ih =>
      intro d hd
      rw [List.foldl_cons]
      apply ih
      by_cases he : stlFilter e = true
      · simp only [he, if_true]
        exact dictInsert_wf hd e he
      · simpa [he] using hd

lemma foldl_build_keys_mono (g : List FSEntry) :
    ∀ d (k : String), k ∈ d.map Prod.fst →
      k ∈ (g.foldl (fun d e => if stlFilter e then dictInsert d e.path e else d) d).map
        Prod.fst := by
  induction g with
  | nil => intro d k hk; simpa using hk
  | cons e g ih =>
      intro d k hk
      rw [List.foldl_cons]
      apply ih
      by_cases he : stlFilter e = true
      · simp only [he, if_true]
        exact dictInsert_fst_mono _ _ hk
      · simpa [he] using hk

lemma foldl_build_mem (g : List FSEntry) :
    ∀ d, ∀ e ∈ g, stlFilter e = true →
      e.path ∈ (g.foldl (fun d e => if stlFilter e then dictInsert d e.path e else d) d).map
        Prod.fst := by
  induction g with
  | nil => intro d e he; simp at he
  | cons a g ih =>
      intro d e he hf
      rw [List.foldl_cons]
      rcases List.mem_cons.mp he with h | h
      · subst h
        simp only [hf, if_true]
        exact foldl_build_keys_mono g _ e.path (dictInsert_fst_self _ _ _)
      · exact ih _ e h hf

/-! ### The claims -/

/-- C1: for every STL file the mesh library loads successfully,
get_stl_dimensions reports width_x, depth_y, height_z equal to the
componentwise maxima minus the componentwise minima over all vertex
coordinates of the mesh, each rounded to 3 decimal places. -/
theorem C1_bounding_box_dimensions (folder file : String) (m : STLMesh)
    (mp : Option ℚ) (mn mx : Vec3)
    (hmn : npMin (points m) = some mn) (hmx : npMax (points m) = some mx) :
    IsCompMin (points m) mn ∧ IsCompMax (points m) mx ∧
    getField (get_stl_dimensions true folder file (Except.ok m) mp) "width_x"
      = some (Cell.num (round3 (mx.x - mn.x))) ∧
    getField (get_stl_dimensions true folder file (Except.ok m) mp) "depth_y"
      = some (Cell.num (round3 (mx.y - mn.y))) ∧
    getField (get_stl_dimensions true folder file (Except.ok m) mp) "height_z"
      = some (Cell.num (round3 (mx.z - mn.z))) := by
  refine ⟨npMin_isCompMin hmn, npMax_isCompMax hmx, ?_, ?_, ?_⟩ <;>
    simp [get_stl_dimensions, hmn, hmx, getField]

/-- C1 witness: the one-triangle sample mesh, evaluated concretely. -/
theorem C1_bounding_box_dimensions_witness :
    IsCompMin (points sampleMesh) ⟨0, 0, 0⟩ ∧ IsCompMax (points sampleMesh) ⟨1, 2, 3⟩ ∧
    getField (get_stl_dimensions true "." "part.stl" (Except.ok sampleMesh) (some 6)) "width_x"
      = some (Cell.num (round3 (Vec3.x ⟨1, 2, 3⟩ - Vec3.x ⟨0, 0, 0⟩))) ∧
    getField (get_stl_dimensions true "." "part.stl" (Except.ok sampleMesh) (some 6)) "depth_y"
      = some (Cell.num (round3 (Vec3.y ⟨1, 2, 3⟩ - Vec3.y ⟨0, 0, 0⟩))) ∧
    getField (get_stl_dimensions true "." "part.stl" (Except.ok sampleMesh) (some 6)) "height_z"
      = some (Cell.num (round3 (Vec3.z ⟨1, 2, 3⟩ - Vec3.z ⟨0, 0, 0⟩))) :=
  C1_bounding_box_dimensions "." "part.stl" sampleMesh (some 6) ⟨0, 0, 0⟩ ⟨1, 2, 3⟩
    (by decide) (by decide)

/-- C3: on a successful load the reported volume is the first component of the
library's mass-properties result, rounded to 3 decimal places; no other
volume computation takes place. -/
theorem C3_volume_from_mass_properties (folder file : String) (m : STLMesh)
    (v : ℚ) (hne : points m ≠ []) :
    getField (get_stl_dimensions true folder file (Except.ok m) (some v)) "volume"
      = some (Cell.num (round3 v)) := by
  obtain ⟨p, ps, hp⟩ := List.exists_cons_of_ne_nil hne
  simp [get_stl_dimensions, hp, npMin, npMax, getField]

/-- C3 witness: the sample mesh with mass-properties volume 6. -/
theorem C3_volume_from_mass_properties_witness :
    getField (get_stl_dimensions true "." "part.stl" (Except.ok sampleMesh) (some 6)) "volume"
      = some (Cell.num (round3 6)) :=
  C3_volume_from_mass_properties "." "part.stl" sampleMesh 6 (by decide)

/-- C7: on a successful load the reported triangle_count is the number of
triangles of the mesh, the length of stl_mesh.vectors; this also holds for a
zero-triangle mesh, where the np.min failure path reports 0. -/
theorem C7_triangle_count (folder file : String) (m : STLMesh) (mp : Option ℚ) :
    getField (get_stl_dimensions true folder file (Except.ok m) mp) "triangle_count"
      = some (Cell.int m.vectors.length) := by
  match hv : m.vectors with
  | [] =>
      have hp : points m = [] := by simp [points, hv]
      simp [get_stl_dimensions, hp, npMin, npMax, getField, errorRecord, hv]
  | t :: ts =>
      have hne : points m ≠ [] := by simp [points, hv]
      obtain ⟨p, ps, hp⟩ := List.exists_cons_of_ne_nil hne
      simp [get_stl_dimensions, hp, npMin, npMax, getField, hv]

/-- C8: when the mesh loads but get_mass_properties raises, the record still
has status "OK", volume 0, and the same bounding-box and triangle-count
fields as any run in which the call succeeds. -/
theorem C8_mass_properties_failure_is_ok (folder file : String) (m : STLMesh)
    (hne : points m ≠ []) :
    getField (get_stl_dimensions true folder file (Except.ok m) none) "status"
      = some (Cell.str "OK") ∧
    getField (get_stl_dimensions true folder file (Except.ok m) none) "volume"
      = some (Cell.num 0) ∧
    ∀ v : ℚ, ∀ k ∈ (["width_x", "depth_y", "height_z", "triangle_count"] : List String),
      getField (get_stl_dimensions true folder file (Except.ok m) none) k
        = getField (get_stl_dimensions true folder file (Except.ok m) (some v)) k := by
  obtain ⟨p, ps, hp⟩ := List.exists_cons_of_ne_nil hne
  refine ⟨?_, ?_, ?_⟩
  · simp [get_stl_dimensions, hp, npMin, npMax, getField]
  · simp [get_stl_dimensions, hp, npMin, npMax, getField, round3]
  · intro v k hk
    fin_cases hk <;> simp [get_stl_dimensions, hp, npMin, npMax, getField]

/-- C8 witness: the sample mesh with a failing mass-properties call. -/
theorem C8_mass_properties_failure_is_ok_witness :
    getField (get_stl_dimensions true "." "part.stl" (Except.ok sampleMesh) none) "status"
      = some (Cell.str "OK") ∧
    getField (get_stl_dimensions true "." "part.stl" (Except.ok sampleMesh) none) "volume"
      = some (Cell.num 0) ∧
    ∀ v : ℚ, ∀ k ∈ (["width_x", "depth_y", "height_z", "triangle_count"] : List String),
      getField (get_stl_dimensions true "." "part.stl" (Except.ok sampleMesh) none) k
        = getField (get_stl_dimensions true "." "part.stl" (Except.ok sampleMesh) (some v)) k :=
  C8_mass_properties_failure_is_ok "." "part.stl" sampleMesh (by decide)

/-- C4: get_stl_dimensions is total (it is a function in this model); every
failure — library missing, load error, or the np.min failure on an empty
vertex array — yields a record whose status begins with "Error" and whose
numeric fields are all 0, and every success yields status exactly "OK". -/
theorem C4_failures_become_error_records (avail : Bool) (folder file : String)
    (load : Except String STLMesh) (mp : Option ℚ) :
    (getField (get_stl_dimensions avail folder file load mp) "status"
        = some (Cell.str "OK") ∨
      ErrorResult (get_stl_dimensions avail folder file load mp)) ∧
    (avail = false → ErrorResult (get_stl_dimensions avail folder file load mp)) ∧
    (∀ e, load = Except.error e →
      ErrorResult (get_stl_dimensions avail folder file load mp)) ∧
    (∀ m, avail = true → load = Except.ok m → points m ≠ [] →
      getField (get_stl_dimensions avail folder file load mp) "status"
        = some (Cell.str "OK")) := by
  cases avail with
  | false =>
      have hrec : get_stl_dimensions false folder file load mp
          = errorRecord folder file ("Error: " ++ "numpy-stl not installed") := by
        simp [get_stl_dimensions]
      refine ⟨Or.inr ?_, fun _ => ?_, fun e _ => ?_, fun m hm => by simp at hm⟩ <;>
        · rw [hrec]; exact errorResult_prefixed folder file "numpy-stl not installed"
  | true =>
      cases load with
      | error e =>
          have hrec : get_stl_dimensions true folder file (Except.error e) mp
              = errorRecord folder file ("Error: " ++ e) := by
            simp [get_stl_dimensions]
          refine ⟨Or.inr ?_, fun h => by simp at h, fun e' he' => ?_,
                  fun m _ hm => by simp at hm⟩
          · rw [hrec]; exact errorResult_prefixed folder file e
          · rw [hrec]; exact errorResult_prefixed folder file e
      | ok m =>
          match hp : points m with
          | [] =>
              have hrec : get_stl_dimensions true folder file (Except.ok m) mp
                  = errorRecord folder file ("Error: " ++ numpyEmptyReduceMsg) := by
                simp [get_stl_dimensions, hp, npMin, npMax]
              refine ⟨Or.inr ?_, fun h => by simp at h, fun e' he' => by simp at he',
                      fun m' _ hm' hne' => ?_⟩
              · rw [hrec]; exact errorResult_prefixed folder file numpyEmptyReduceMsg
              · rw [Except.ok.injEq] at hm'
                rw [← hm'] at hne'
                exact absurd hp hne'
          | p :: ps =>
              have hok : getField (get_stl_dimensions true folder file (Except.ok m) mp)
                  "status" = some (Cell.str "OK") := by
                simp [get_stl_dimensions, hp, npMin, npMax, getField]
              exact ⟨Or.inl hok, fun h => by simp at h, fun e' he' => by simp at he',
                     fun m' _ _ _ => hok⟩

/-- C2: find_stl_files returns pairwise-distinct full paths; every element is
a regular file whose lowercased name ends with ".stl"; and deduplication is
keyed on the full path, so every distinct full path that matches the filter
is kept. -/
theorem C2_find_stl_files_dedup (fsGlob : Bool → String → String → List FSEntry)
    (folder_path : String) (recursive : Bool) :
    ((find_stl_files fsGlob folder_path recursive).map FSEntry.path).Nodup ∧
    (∀ e ∈ find_stl_files fsGlob folder_path recursive,
        e.isFile = true ∧ e.name.toLower.endsWith ".stl" = true) ∧
    (∀ e ∈ globbedFiles fsGlob folder_path recursive, stlFilter e = true →
        e.path ∈ (find_stl_files fsGlob folder_path recursive).map FSEntry.path) := by
  obtain ⟨hnd, hall⟩ : DictWF ((globbedFiles fsGlob folder_path recursive).foldl
      (fun d e => if stlFilter e then dictInsert d e.path e else d) []) :=
    foldl_build_wf _ [] ⟨List.nodup_nil, by simp⟩
  have hkeys : (find_stl_files fsGlob folder_path recursive).map FSEntry.path
      = ((globbedFiles fsGlob folder_path recursive).foldl
          (fun d e => if stlFilter e then dictInsert d e.path e else d) []).map Prod.fst := by
    unfold find_stl_files
    rw [List.map_map]
    exact List.map_congr_left (fun p hp => (hall p hp).1)
  refine ⟨?_, ?_, ?_⟩
  · rw [hkeys]; exact hnd
  · intro e he
    unfold find_stl_files at he
    obtain ⟨p, hp, hpe⟩ := List.mem_map.mp he
    have hf := (hall p hp).2
    rw [hpe] at hf
    simp only [stlFilter, Bool.and_eq_true] at hf
    exact ⟨hf.2, hf.1⟩
  · intro e he hf
    rw [hkeys]
    exact foldl_build_mem _ [] e he hf

/-- C9: every record get_stl_dimensions returns, on success or on any
failure, has exactly the nine keys folder, file, width_x, depth_y, height_z,
volume, triangle_count, unit, status in that order, with unit always "mm";
hence the CSV export, whose fieldnames are the first record's keys, never
drops a field of a later record. -/
theorem C9_uniform_record_keys (avail : Bool) (folder file : String)
    (load : Except String STLMesh) (mp : Option ℚ) :
    (get_stl_dimensions avail folder file load mp).map Prod.fst = stlRecordKeys ∧
    getField (get_stl_dimensions avail folder file load mp) "unit"
      = some (Cell.str "mm") ∧
    (∀ fo ts (rs : List Record), (∀ r ∈ rs, r.map Prod.fst = stlRecordKeys) →
      ∀ p hdr rows, OutputAction.csvWrite p hdr rows ∈ auto_export_results fo ts rs →
        hdr = stlRecordKeys ∧ ∀ r ∈ rows, r.map Prod.fst = hdr) := by
  refine ⟨?_, ?_, ?_⟩
  · cases avail with
    | false => simp [get_stl_dimensions, errorRecord, stlRecordKeys]
    | true =>
        cases load with
        | error e => simp [get_stl_dimensions, errorRecord, stlRecordKeys]
        | ok m =>
            match hp : points m with
            | [] =>
                simp [get_stl_dimensions, hp, npMin, npMax, errorRecord, stlRecordKeys]
            | p :: ps => simp [get_stl_dimensions, hp, npMin, npMax, stlRecordKeys]
  · cases avail with
    | false => simp [get_stl_dimensions, errorRecord, getField]
    | true =>
        cases load with
        | error e => simp [get_stl_dimensions, errorRecord, getField]
        | ok m =>
            match hp : points m with
            | [] => simp [get_stl_dimensions, hp, npMin, npMax, errorRecord, getField]
            | p :: ps => simp [get_stl_dimensions, hp, npMin, npMax, getField]
  · intro fo ts rs hkeys p hdr rows hmem
    cases rs with
    | nil => simp [auto_export_results] at hmem
    | cons r rest =>
        simp only [auto_export_results, List.mem_singleton] at hmem
        injection hmem with h1 h2 h3
        constructor
        · rw [h2]; exact hkeys r (List.mem_cons_self _ _)
        · intro r' hr'
          rw [h3] at hr'
          rw [hkeys r' hr', h2, hkeys r (List.mem_cons_self _ _)]

/-- C5 counterexample: a concrete completed run whose output actions are one
CSV write and no log-file write, refuting "writes the results both to a CSV
report and to a human-readable log file". -/
theorem C5_no_log_file_counterexample :
    analysis_complete_outputs "d" "20240101_000000"
        [errorRecord "." "part.stl" "Error: numpy-stl not installed"]
      = [OutputAction.csvWrite "d/stl_dimensions_20240101_000000.csv" stlRecordKeys
          [errorRecord "." "part.stl" "Error: numpy-stl not installed"]] ∧
    containsLogWrite (analysis_complete_outputs "d" "20240101_000000"
        [errorRecord "." "part.stl" "Error: numpy-stl not installed"]) = false :=
  ⟨rfl, rfl⟩

/-- C5 amended: after an analysis run with at least one result the program
writes the results to a single CSV report (stl_dimensions_<timestamp>.csv in
the selected folder); it writes no log file. -/
theorem C5_results_written_to_csv_only (folder timestamp : String)
    (results : List Record) :
    (results = [] → analysis_complete_outputs folder timestamp results = []) ∧
    (∀ r rest, results = r :: rest →
      analysis_complete_outputs folder timestamp results
        = [OutputAction.csvWrite (folder ++ "/stl_dimensions_" ++ timestamp ++ ".csv")
            (r.map Prod.fst) results]) ∧
    containsLogWrite (analysis_complete_outputs folder timestamp results) = false := by
  refine ⟨fun h => by simp [analysis_complete_outputs, auto_export_results, h],
          fun r rest h => by simp [analysis_complete_outputs, auto_export_results, h],
          ?_⟩
  cases results with
  | nil => rfl
  | cons r rest => rfl

lemma analyzeLoop_spec (avail : Bool) (folder : String) (recursive : Bool)
    (total : Nat) (stopAt : Nat → Bool) :
    ∀ (files : List FileInput) (i : Nat),
      resultMsgs (analyzeLoop avail folder recursive total stopAt files i).1
        = (analyzeLoop avail folder recursive total stopAt files i).2 ∧
      ∃ k, (analyzeLoop avail folder recursive total stopAt files i).2
        = (files.take k).map
            (fun f => get_stl_dimensions avail folder f.file f.load f.massProps) := by
  intro files
  induction files with
  | nil =>
      intro i
      by_cases h : stopAt i = true <;>
        · refine ⟨?_, 0, ?_⟩ <;> simp [analyzeLoop, h, resultMsgs]
  | cons f rest ih =>
      intro i
      by_cases h : stopAt i = true
      · refine ⟨?_, 0, ?_⟩ <;> simp [analyzeLoop, h, resultMsgs]
      · obtain ⟨hres, k, hk⟩ := ih (i + 1)
        constructor
        · simp only [analyzeLoop, h, if_false, Bool.false_eq_true, resultMsgs,
            List.filterMap_cons] at hres ⊢
          simpa [resultMsgs] using hres
        · refine ⟨k + 1, ?_⟩
          simp [analyzeLoop, h, List.take_succ_cons, hk]

/-- C6: the record stream the worker enqueues for the graphical results
browser (the ('result', r) messages consumed by add_result_to_tree) and the
record list it appends to self.results (consumed by the export/summary flow)
are the same list, and each record is produced by the one measurement
routine get_stl_dimensions applied to the file. -/
theorem C6_single_measurement_routine (avail : Bool) (folder : String)
    (recursive : Bool) (stopAt : Nat → Bool) (files : List FileInput) :
    resultMsgs (analyze_files_thread avail folder recursive stopAt files).1
      = (analyze_files_thread avail folder recursive stopAt files).2 ∧
    ∃ k, (analyze_files_thread avail folder recursive stopAt files).2
      = (files.take k).map
          (fun f => get_stl_dimensions avail folder f.file f.load f.massProps) := by
  obtain ⟨h1, k, h2⟩ := analyzeLoop_spec avail folder recursive files.length stopAt files 0
  constructor
  · simpa [analyze_files_thread, resultMsgs] using h1
  · exact ⟨k, by simpa [analyze_files_thread] using h2⟩

end StlAnalyzer
